import Mathlib

/-!
Verification development for the Exogiveaway Discord giveaway bot.

The definitions below are a shallow embedding of the bot's JavaScript source:

* `src/src/index.js` — the tournament-capable revision (weighted winner
  selection, tournament phase chaining, button handling, rate limiter), and
* the classic revision (`src/unnamed/part_000`) — crash recovery over the
  SQLite store (`restartAllGiveaways`, `processExpiredGiveaway`,
  `startClassicCountdown`), the join/leave button handlers, and the
  try/catch-wrapped `saveGiveaway`.

Times are modelled as naturals (milliseconds since epoch, as produced by
`Date.now()`); `Math.random()`-driven index draws are modelled by an
injectable stream `rand : Nat → Nat` reduced modulo the pool size, which
reaches exactly the indices `Math.floor(Math.random() * len)` can produce.
-/

namespace Exogiveaway

/-! ## Ticket weights (src/src/index.js, `TicketSystem`)

`ticketsDistribution[userId] || 1`: a missing entry is `undefined` and a zero
entry is falsy in JavaScript, so both fall back to weight 1.  We model a
distribution as a total function `String → Nat` where the value `0` stands
for "absent or zero". -/

def ticketWeight (dist : String → Nat) (userId : String) : Nat :=
  if dist userId = 0 then 1 else dist userId

theorem ticketWeight_pos (dist : String → Nat) (userId : String) :
    0 < ticketWeight dist userId := by
  unfold ticketWeight
  split
  · exact Nat.one_pos
  · omega

/-- `TicketSystem.calculateTickets` (src/src/index.js lines 250-260): the
    per-user stats row read from `user_stats`; only the three fields the
    ticket formula consumes are modelled. -/
structure UserStats where
  level : Nat
  streak_count : Nat
  referral_count : Nat
  deriving DecidableEq

/-- `TicketSystem.calculateTickets(userId, guildId, baseTickets = 1)`:
    without a stats row it returns `baseTickets`; otherwise it adds
    `floor(level/3) + floor(streak/7) + floor(referrals/2)` and caps the
    result with `Math.min(tickets, 10)`. -/
def calculateTickets (stats : Option UserStats) (baseTickets : Nat) : Nat :=
  match stats with
  | none => baseTickets
  | some s =>
      min (baseTickets + s.level / 3 + s.streak_count / 7 + s.referral_count / 2) 10

/-! ## Weighted winner selection (src/src/index.js, `selectWinners`)

```js
function selectWinners(participants, winnerCount, ticketsDistribution) {
  if (participants.length === 0) return [];
  let ticketsPool = [];
  participants.forEach(userId => {
    const tickets = ticketsDistribution[userId] || 1;
    for (let i = 0; i < tickets; i++) ticketsPool.push(userId);
  });
  const winners = [];
  let availableTickets = [...ticketsPool];
  for (let i = 0; i < Math.min(winnerCount, participants.length); i++) {
    if (availableTickets.length === 0) break;
    const randomIndex = Math.floor(Math.random() * availableTickets.length);
    const winner = availableTickets[randomIndex];
    if (!winners.includes(winner)) winners.push(winner);
    availableTickets = availableTickets.filter(ticket => ticket !== winner);
  }
  return winners;
}
``` -/

def ticketsPool (participants : List String) (dist : String → Nat) : List String :=
  participants.flatMap (fun userId => List.replicate (ticketWeight dist userId) userId)

/-- The selection loop of `selectWinners`.  `n` is the number of loop
    iterations still to run, `i` the current iteration index (feeding the
    random stream), `winners` the accumulator and `avail` the mutable
    `availableTickets` array. -/
def selectGo (rand : Nat → Nat) :
    Nat → Nat → List String → List String → List String
  | 0, _, winners, _ => winners
  | n + 1, i, winners, avail =>
      if h : avail = [] then winners
      else
        let winner := avail.get ⟨rand i % avail.length,
          Nat.mod_lt _ (List.length_pos.mpr h)⟩
        let winners' := if winner ∈ winners then winners else winners ++ [winner]
        selectGo rand n (i + 1) winners' (avail.filter (fun t => t ≠ winner))

/-- `selectWinners(participants, winnerCount, ticketsDistribution)` with the
    random source made explicit. -/
def selectWinners (rand : Nat → Nat) (participants : List String)
    (winnerCount : Nat) (dist : String → Nat) : List String :=
  if participants = [] then []
  else selectGo rand (min winnerCount participants.length) 0 []
    (ticketsPool participants dist)

theorem mem_ticketsPool {participants : List String} {dist : String → Nat}
    {x : String} : x ∈ ticketsPool participants dist ↔ x ∈ participants := by
  unfold ticketsPool
  simp only [List.mem_flatMap, List.mem_replicate]
  constructor
  · rintro ⟨u, hu, -, rfl⟩
    exact hu
  · intro hx
    refine ⟨x, hx, ?_, rfl⟩
    have := ticketWeight_pos dist x
    omega

theorem toFinset_ticketsPool (participants : List String) (dist : String → Nat) :
    (ticketsPool participants dist).toFinset = participants.toFinset := by
  ext x
  simp only [List.mem_toFinset]
  exact mem_ticketsPool

/-- Every output of the selection loop is either an accumulated winner or an
    element of the remaining pool. -/
theorem selectGo_mem (rand : Nat → Nat) :
    ∀ (n i : Nat) (winners avail : List String) (x : String),
      x ∈ selectGo rand n i winners avail → x ∈ winners ∨ x ∈ avail := by
  intro n
  induction n with
  | zero => intro i winners avail x hx; exact Or.inl hx
  | succ n ih =>
      intro i winners avail x hx
      rw [selectGo] at hx
      by_cases h : avail = []
      · rw [dif_pos h] at hx
        exact Or.inl hx
      · rw [dif_neg h] at hx
        simp only [] at hx
        rcases ih _ _ _ x hx with hw | ha
        · by_cases hmem : avail.get ⟨rand i % avail.length,
              Nat.mod_lt _ (List.length_pos.mpr h)⟩ ∈ winners
          · rw [if_pos hmem] at hw
            exact Or.inl hw
          · rw [if_neg hmem] at hw
            rcases List.mem_append.mp hw with hw | hw
            · exact Or.inl hw
            · right
              rw [List.mem_singleton.mp hw]
              exact List.get_mem _ _ _
        · exact Or.inr (List.mem_of_mem_filter ha)

/-- The selection loop preserves distinctness: starting from a duplicate-free
    accumulator disjoint from the pool, the result is duplicate-free. -/
theorem selectGo_nodup (rand : Nat → Nat) :
    ∀ (n i : Nat) (winners avail : List String),
      winners.Nodup → (∀ x ∈ winners, x ∉ avail) →
      (selectGo rand n i winners avail).Nodup := by
  intro n
  induction n with
  | zero => intro i winners avail hnd _; exact hnd
  | succ n ih =>
      intro i winners avail hnd hdisj
      rw [selectGo]
      by_cases h : avail = []
      · rw [dif_pos h]; exact hnd
      · rw [dif_neg h]
        simp only []
        set winner := avail.get ⟨rand i % avail.length,
          Nat.mod_lt _ (List.length_pos.mpr h)⟩ with hwinner
        have hwa : winner ∈ avail := List.get_mem _ _ _
        have hww : winner ∉ winners := fun hw => hdisj winner hw hwa
        rw [if_neg hww]
        apply ih
        · exact List.Nodup.append hnd (List.nodup_singleton winner)
            (by intro x hx hx'; rw [List.mem_singleton.mp hx'] at hx; exact hww hx)
        · intro x hx hxf
          have hxa := List.mem_of_mem_filter hxf
          have hxne : x ≠ winner := by
            have := List.of_mem_filter hxf
            simpa using this
          rcases List.mem_append.mp hx with hx | hx
          · exact hdisj x hx hxa
          · exact hxne (List.mem_singleton.mp hx)

theorem toFinset_filter_ne (avail : List String) (winner : String) :
    (avail.filter (fun t => t ≠ winner)).toFinset = avail.toFinset.erase winner := by
  ext x
  simp only [List.mem_toFinset, List.mem_filter, Finset.mem_erase, decide_not,
    Bool.not_eq_true', decide_eq_false_iff_not]
  tauto

/-- Length of the selection loop result: one fresh winner is drawn per
    iteration until either the iteration budget `n` or the number of distinct
    users remaining in the pool is exhausted. -/
theorem selectGo_length (rand : Nat → Nat) :
    ∀ (n i : Nat) (winners avail : List String),
      (∀ x ∈ winners, x ∉ avail) →
      (selectGo rand n i winners avail).length =
        winners.length + min n avail.toFinset.card := by
  intro n
  induction n with
  | zero => intro i winners avail _; rw [selectGo]; simp
  | succ n ih =>
      intro i winners avail hdisj
      rw [selectGo]
      by_cases h : avail = []
      · rw [dif_pos h]
        subst h
        simp
      · rw [dif_neg h]
        simp only []
        set winner := avail.get ⟨rand i % avail.length,
          Nat.mod_lt _ (List.length_pos.mpr h)⟩ with hwinner
        have hwa : winner ∈ avail := List.get_mem _ _ _
        have hww : winner ∉ winners := fun hw => hdisj winner hw hwa
        rw [if_neg hww]
        have hdisj' : ∀ x ∈ winners ++ [winner],
            x ∉ avail.filter (fun t => t ≠ winner) := by
          intro x hx hxf
          have hxa := List.mem_of_mem_filter hxf
          have hxne : x ≠ winner := by
            have := List.of_mem_filter hxf
            simpa using this
          rcases List.mem_append.mp hx with hx | hx
          · exact hdisj x hx hxa
          · exact hxne (List.mem_singleton.mp hx)
        rw [ih (i + 1) (winners ++ [winner]) _ hdisj']
        have hcard : (avail.filter (fun t => t ≠ winner)).toFinset.card =
            avail.toFinset.card - 1 := by
          rw [toFinset_filter_ne]
          exact Finset.card_erase_of_mem (List.mem_toFinset.mpr hwa)
        have hpos : 0 < avail.toFinset.card :=
          Finset.card_pos.mpr ⟨winner, List.mem_toFinset.mpr hwa⟩
        rw [hcard]
        simp only [List.length_append, List.length_singleton]
        omega

/-- Claim C2 — `selectWinners` on a duplicate-free participant list returns
    pairwise-distinct winners, exactly `min(winnerCount, |participants|)` of
    them, all drawn from the participants; an empty participant list yields
    an empty result (so an oversized `winnerCount` is clamped, not an
    error). -/
theorem selectWinners_spec (rand : Nat → Nat) (participants : List String)
    (winnerCount : Nat) (dist : String → Nat) (hnd : participants.Nodup) :
    (selectWinners rand participants winnerCount dist).Nodup ∧
    (selectWinners rand participants winnerCount dist).length =
      min winnerCount participants.length ∧
    (∀ x ∈ selectWinners rand participants winnerCount dist, x ∈ participants) ∧
    (participants = [] → selectWinners rand participants winnerCount dist = []) := by
  unfold selectWinners
  by_cases h : participants = []
  · rw [if_pos h]
    subst h
    simp
  · rw [if_neg h]
    refine ⟨?_, ?_, ?_, fun h' => absurd h' h⟩
    · exact selectGo_nodup rand _ 0 [] _ List.nodup_nil (by simp)
    · rw [selectGo_length rand _ 0 [] _ (by simp)]
      rw [toFinset_ticketsPool, List.toFinset_card_of_nodup hnd]
      simp [Nat.min_assoc]
    · intro x hx
      rcases selectGo_mem rand _ 0 [] _ x hx with h' | h'
      · simp at h'
      · exact mem_ticketsPool.mp h'

/-- Witness for `selectWinners_spec` at a concrete input: three participants
    with weights 1, 2 and 5, drawing two winners from the stream that always
    picks index 0. -/
theorem selectWinners_spec_witness :
    (selectWinners (fun _ => 0) ["A", "B", "C"] 2
        (fun u => if u = "B" then 2 else if u = "C" then 5 else 0)).Nodup ∧
    (selectWinners (fun _ => 0) ["A", "B", "C"] 2
        (fun u => if u = "B" then 2 else if u = "C" then 5 else 0)).length =
      min 2 (["A", "B", "C"] : List String).length ∧
    (∀ x ∈ selectWinners (fun _ => 0) ["A", "B", "C"] 2
        (fun u => if u = "B" then 2 else if u = "C" then 5 else 0),
      x ∈ (["A", "B", "C"] : List String)) ∧
    ((["A", "B", "C"] : List String) = [] →
      selectWinners (fun _ => 0) ["A", "B", "C"] 2
        (fun u => if u = "B" then 2 else if u = "C" then 5 else 0) = []) := by
  exact selectWinners_spec (fun _ => 0) ["A", "B", "C"] 2
    (fun u => if u = "B" then 2 else if u = "C" then 5 else 0) (by decide)

/-! ## Tournament phases (src/src/index.js, `TournamentSystem`)

`endTournamentPhase` (lines 568-627) does *not* call `selectWinners`; it
ranks the participants by ticket count:

```js
const sortedParticipants = currentGiveaway.participants
  .map(userId => ({ userId, tickets: ticketsDistribution[userId] || 1 }))
  .sort((a, b) => b.tickets - a.tickets);
const qualifiedUsers = sortedParticipants
  .slice(0, currentGiveaway.gagnants)
  .map(p => p.userId);
```

`Array.prototype.sort` is stable (ES2019) and the comparator
`(a, b) => b.tickets - a.tickets` orders by descending ticket count, which
we model with a stable insertion sort under the relation
"left has at least as many tickets as right". -/

def ticketGe (a b : String × Nat) : Prop := b.2 ≤ a.2

instance : DecidableRel ticketGe := fun a b => Nat.decLe b.2 a.2

instance : IsTotal (String × Nat) ticketGe :=
  ⟨fun a b => le_total b.2 a.2⟩

instance : IsTrans (String × Nat) ticketGe :=
  ⟨fun _ _ _ h1 h2 => le_trans h2 h1⟩

/-- The `sortedParticipants` array of `endTournamentPhase`: each participant
    paired with their ticket count, sorted by descending ticket count. -/
def sortedParticipants (dist : String → Nat) (participants : List String) :
    List (String × Nat) :=
  List.insertionSort ticketGe
    (participants.map (fun userId => (userId, ticketWeight dist userId)))

/-- The `qualifiedUsers` array of `endTournamentPhase`: the first `gagnants`
    entries of `sortedParticipants`, projected back to user ids. -/
def qualifiedUsers (dist : String → Nat) (participants : List String)
    (gagnants : Nat) : List String :=
  ((sortedParticipants dist participants).take gagnants).map Prod.fst

/-- One row of the `giveaways` table / `giveawaysCache`, restricted to the
    fields the tournament and button logic reads (`prix`, `commentaire`,
    `image`, `channelId`, `guildId` and `referral_codes` are opaque display
    data and are omitted). -/
structure Giveaway where
  messageId : String
  prix : String
  gagnants : Nat
  endTime : Nat
  participants : List String
  roleRequired : Option String
  organizer : String
  tournament_phase : String
  phase_number : Nat
  total_phases : Nat
  qualified_users : List String
  deriving DecidableEq

/-- The state update of `endTournamentPhase` on the giveaway record before
    it is saved: `currentGiveaway.qualified_users = qualifiedUsers`. -/
def endTournamentPhase (dist : String → Nat) (g : Giveaway) : Giveaway :=
  { g with qualified_users := qualifiedUsers dist g.participants g.gagnants }

/-- `startNextPhase` ratio table (src/src/index.js lines 631-646):
    phase 2 winners are `Math.ceil(previousPhase.gagnants * 0.5)`.  The
    double `0.5` is exactly `1/2`, modelled in `ℚ`. -/
def phase2Winners (previousWinners : Nat) : Nat :=
  ⌈(previousWinners : ℚ) * (1 / 2)⌉₊

/-- Phase 3 winners are `Math.max(1, Math.ceil(previousPhase.gagnants * 0.3))`.
    The double `0.3` is modelled as `3/10`; for every count on which
    `Math.ceil` is exact (all counts below `2^52`) the double computation
    agrees with the rational one, because `3n/10` is never within one unit
    in the last place of an integer it does not equal. -/
def phase3Winners (previousWinners : Nat) : Nat :=
  max 1 ⌈(previousWinners : ℚ) * (3 / 10)⌉₊

/-- One entry of the `phases` table in `startNextPhase`; durations are in
    milliseconds (`parseDuration('2h')`, `parseDuration('1h')`). -/
structure PhaseSpec where
  name : String
  duration : Nat
  winners : Nat
  phaseNumber : Nat
  totalPhases : Nat
  deriving DecidableEq

/-- The `phases` lookup object of `startNextPhase`, keyed by the next phase
    number; any other key yields `undefined` and the function returns. -/
def phasesTable (previousPhase : Giveaway) (nextPhaseNumber : Nat) :
    Option PhaseSpec :=
  match nextPhaseNumber with
  | 2 => some ⟨"Phase 2 - Demi-finales", 2 * 60 * 60 * 1000,
      phase2Winners previousPhase.gagnants, 2, 3⟩
  | 3 => some ⟨"Phase Finale", 60 * 60 * 1000,
      phase3Winners previousPhase.gagnants, 3, 3⟩
  | _ => none

/-- `startNextPhase(originalMessage, previousPhase)` (src/src/index.js lines
    629-711): builds the next phase's giveaway record.  The participants of
    the new phase are exactly `previousPhase.qualified_users` and its
    `qualified_users` start empty. -/
def startNextPhase (previousPhase : Giveaway) (newMessageId : String)
    (now : Nat) : Option Giveaway :=
  match phasesTable previousPhase (previousPhase.phase_number + 1) with
  | none => none
  | some nextPhase => some
      { messageId := newMessageId
        prix := previousPhase.prix
        gagnants := nextPhase.winners
        endTime := now + nextPhase.duration
        participants := previousPhase.qualified_users
        roleRequired := previousPhase.roleRequired
        organizer := previousPhase.organizer
        tournament_phase := "tournament"
        phase_number := previousPhase.phase_number + 1
        total_phases := nextPhase.totalPhases
        qualified_users := [] }

/-- Closed form of ceiling division over `ℚ` by a positive natural. -/
theorem nat_ceil_cast_div (x b : Nat) (hb : 0 < b) :
    ⌈(x : ℚ) / (b : ℚ)⌉₊ = (x + b - 1) / b := by
  rcases Nat.eq_zero_or_pos x with hx | hx
  · subst hx
    rw [Nat.cast_zero, zero_div, Nat.ceil_zero]
    symm
    exact Nat.div_eq_of_lt (by omega)
  · set q := (x + b - 1) / b with hq
    have hdm : b * q + (x + b - 1) % b = x + b - 1 := Nat.div_add_mod _ _
    have hmod : (x + b - 1) % b < b := Nat.mod_lt _ hb
    have hq1 : 1 ≤ q := by
      rw [hq, Nat.le_div_iff_mul_le hb]
      omega
    have hcomm : b * q = q * b := Nat.mul_comm b q
    have hsub : (q - 1) * b = q * b - 1 * b := Nat.sub_mul q 1 b
    have hub : x ≤ q * b := by omega
    have hlb : (q - 1) * b < x := by omega
    rw [Nat.ceil_eq_iff (by omega : q ≠ 0)]
    have hbq : (0 : ℚ) < (b : ℚ) := by exact_mod_cast hb
    constructor
    · rw [lt_div_iff₀ hbq]
      exact_mod_cast hlb
    · rw [div_le_iff₀ hbq]
      exact_mod_cast hub

/-- Claim C5 — the ratio table: phase 2 gets `⌈previous/2⌉` winners and
    phase 3 gets `max(1, ⌈3·previous/10⌉)` winners, expressed with natural
    division; in particular `previous = 10` gives 5 then 3, and
    `previous = 1` gives 1 in phase 3. -/
theorem phaseRatio_spec (previousWinners : Nat) :
    phase2Winners previousWinners = (previousWinners + 1) / 2 ∧
    phase3Winners previousWinners = max 1 ((3 * previousWinners + 9) / 10) ∧
    phase2Winners 10 = 5 ∧ phase3Winners 10 = 3 ∧ phase3Winners 1 = 1 := by
  have h2 : ∀ n : Nat, phase2Winners n = (n + 1) / 2 := by
    intro n
    unfold phase2Winners
    have harg : (n : ℚ) * (1 / 2) = ((n * 1 : ℕ) : ℚ) / ((2 : ℕ) : ℚ) := by
      push_cast
      ring
    rw [harg, nat_ceil_cast_div (n * 1) 2 (by omega)]
    congr 1
    omega
  have h3 : ∀ n : Nat, phase3Winners n = max 1 ((3 * n + 9) / 10) := by
    intro n
    unfold phase3Winners
    have harg : (n : ℚ) * (3 / 10) = ((n * 3 : ℕ) : ℚ) / ((10 : ℕ) : ℚ) := by
      push_cast
      ring
    rw [harg, nat_ceil_cast_div (n * 3) 10 (by omega)]
    congr 2
    omega
  refine ⟨h2 previousWinners, h3 previousWinners, ?_, ?_, ?_⟩
  · rw [h2]
  · rw [h3]
    decide
  · rw [h3]
    decide

theorem sortedParticipants_perm (dist : String → Nat) (participants : List String) :
    (sortedParticipants dist participants).Perm
      (participants.map (fun userId => (userId, ticketWeight dist userId))) :=
  List.perm_insertionSort _ _

theorem sortedParticipants_sorted (dist : String → Nat) (participants : List String) :
    List.Sorted ticketGe (sortedParticipants dist participants) :=
  List.sorted_insertionSort _ _

theorem of_mem_sortedParticipants {dist : String → Nat}
    {participants : List String} {x : String × Nat}
    (hx : x ∈ sortedParticipants dist participants) :
    x.2 = ticketWeight dist x.1 ∧ x.1 ∈ participants := by
  have hx' := (sortedParticipants_perm dist participants).mem_iff.mp hx
  simp only [List.mem_map] at hx'
  obtain ⟨u, hu, rfl⟩ := hx'
  exact ⟨rfl, hu⟩

theorem map_fst_sortedParticipants_perm (dist : String → Nat)
    (participants : List String) :
    ((sortedParticipants dist participants).map Prod.fst).Perm participants := by
  have h := (sortedParticipants_perm dist participants).map Prod.fst
  rw [List.map_map] at h
  have hcomp : (Prod.fst ∘ fun userId => (userId, ticketWeight dist userId)) =
      @id String := rfl
  rw [hcomp, List.map_id] at h
  exact h

theorem qualifiedUsers_length (dist : String → Nat) (participants : List String)
    (gagnants : Nat) :
    (qualifiedUsers dist participants gagnants).length =
      min gagnants participants.length := by
  unfold qualifiedUsers
  rw [List.length_map, List.length_take]
  congr 1
  rw [(sortedParticipants_perm dist participants).length_eq, List.length_map]

theorem qualifiedUsers_subset {dist : String → Nat} {participants : List String}
    {gagnants : Nat} {x : String}
    (hx : x ∈ qualifiedUsers dist participants gagnants) : x ∈ participants := by
  unfold qualifiedUsers at hx
  obtain ⟨px, hpx, rfl⟩ := List.mem_map.mp hx
  exact (of_mem_sortedParticipants (List.mem_of_mem_take hpx)).2

theorem qualifiedUsers_nodup {dist : String → Nat} {participants : List String}
    {gagnants : Nat} (hnd : participants.Nodup) :
    (qualifiedUsers dist participants gagnants).Nodup := by
  unfold qualifiedUsers
  rw [List.map_take]
  exact List.Nodup.sublist (List.take_sublist _ _)
    (((map_fst_sortedParticipants_perm dist participants).nodup_iff).mpr hnd)

/-- The top-N property of the descending sort: every qualified user carries
    at least as many tickets as every participant who did not qualify. -/
theorem qualifiedUsers_topN {dist : String → Nat} {participants : List String}
    {gagnants : Nat} {x y : String}
    (hx : x ∈ qualifiedUsers dist participants gagnants)
    (hy : y ∈ participants) (hyq : y ∉ qualifiedUsers dist participants gagnants) :
    ticketWeight dist y ≤ ticketWeight dist x := by
  unfold qualifiedUsers at hx hyq
  obtain ⟨px, hpx, rfl⟩ := List.mem_map.mp hx
  have hpxs : px.2 = ticketWeight dist px.1 :=
    (of_mem_sortedParticipants (List.mem_of_mem_take hpx)).1
  have hymem : (y, ticketWeight dist y) ∈ sortedParticipants dist participants := by
    rw [(sortedParticipants_perm dist participants).mem_iff]
    exact List.mem_map.mpr ⟨y, hy, rfl⟩
  rw [← List.take_append_drop gagnants (sortedParticipants dist participants)]
    at hymem
  rcases List.mem_append.mp hymem with hyt | hyd
  · exact absurd (List.mem_map.mpr ⟨(y, ticketWeight dist y), hyt, rfl⟩) hyq
  · have hrel : ticketGe px (y, ticketWeight dist y) :=
      (sortedParticipants_sorted dist participants).rel_of_mem_take_of_mem_drop
        hpx hyd
    rw [← hpxs]
    exact hrel

/-- Claim C3 (amended) — at the finalize of a tournament phase the stored
    `qualified_users` are the top `gagnants` participants by ticket weight:
    `min(gagnants, |participants|)` of them, pairwise distinct, all
    participants, and each with at least as much weight as every participant
    who did not qualify. -/
theorem endTournamentPhase_qualified_spec (dist : String → Nat) (g : Giveaway)
    (hnd : g.participants.Nodup) :
    (endTournamentPhase dist g).qualified_users.length =
      min g.gagnants g.participants.length ∧
    (endTournamentPhase dist g).qualified_users.Nodup ∧
    (∀ x ∈ (endTournamentPhase dist g).qualified_users, x ∈ g.participants) ∧
    (∀ x ∈ (endTournamentPhase dist g).qualified_users, ∀ y ∈ g.participants,
      y ∉ (endTournamentPhase dist g).qualified_users →
      ticketWeight dist y ≤ ticketWeight dist x) := by
  refine ⟨qualifiedUsers_length dist g.participants g.gagnants,
    qualifiedUsers_nodup hnd, fun x hx => qualifiedUsers_subset hx,
    fun x hx y hy hyq => qualifiedUsers_topN hx hy hyq⟩

/-- Witness for `endTournamentPhase_qualified_spec`: a phase with
    participants `A, B, C`, weights 1, 2, 5 and two qualifier slots. -/
theorem endTournamentPhase_qualified_spec_witness :
    (endTournamentPhase (fun u => if u = "B" then 2 else if u = "C" then 5 else 0)
        { messageId := "m", prix := "p", gagnants := 2, endTime := 100,
          participants := ["A", "B", "C"], roleRequired := none,
          organizer := "o", tournament_phase := "tournament", phase_number := 1,
          total_phases := 3, qualified_users := [] }).qualified_users.length =
      min 2 (["A", "B", "C"] : List String).length ∧
    (endTournamentPhase (fun u => if u = "B" then 2 else if u = "C" then 5 else 0)
        { messageId := "m", prix := "p", gagnants := 2, endTime := 100,
          participants := ["A", "B", "C"], roleRequired := none,
          organizer := "o", tournament_phase := "tournament", phase_number := 1,
          total_phases := 3, qualified_users := [] }).qualified_users.Nodup := by
  have h := endTournamentPhase_qualified_spec
    (fun u => if u = "B" then 2 else if u = "C" then 5 else 0)
    { messageId := "m", prix := "p", gagnants := 2, endTime := 100,
      participants := ["A", "B", "C"], roleRequired := none,
      organizer := "o", tournament_phase := "tournament", phase_number := 1,
      total_phases := 3, qualified_users := [] } (by decide)
  exact ⟨h.1, h.2.1⟩

/-- Claim C3 counterexample — the phase qualifiers are not the output of the
    weighted random selector: with participants `A, B`, weights 1 and 2 and
    one slot, the phase deterministically qualifies `B` (top ticket count),
    while `selectWinners` under the random stream that draws index 0 returns
    `A`. -/
theorem qualifiedUsers_ne_selectWinners :
    qualifiedUsers (fun u => if u = "B" then 2 else 0) ["A", "B"] 1 = ["B"] ∧
    selectWinners (fun _ => 0) ["A", "B"] 1
      (fun u => if u = "B" then 2 else 0) = ["A"] ∧
    qualifiedUsers (fun u => if u = "B" then 2 else 0) ["A", "B"] 1 ≠
      selectWinners (fun _ => 0) ["A", "B"] 1
        (fun u => if u = "B" then 2 else 0) := by
  refine ⟨?_, ?_, ?_⟩ <;> decide

/-! ## Button interactions (src/src/index.js, `handleButtonInteraction` and
the per-button handlers, lines 1063-1290)

Each handler replies exactly once; we record which reply was sent as an
enumerated tag together with the (possibly updated) giveaway record. -/

inductive Reply
  | notExists
  | phaseClosed
  | roleMissing
  | alreadyParticipant
  | joined
  | noPermission
  | cancelledOk
  | participantsShown
  | mustParticipate
  | statsShown
  | leaderboardShown
  | notTournament
  | unknownAction
  deriving DecidableEq

/-- Does the member pass the `roleRequired` check of `handleEnterGiveaway`?
    (`giveaway.roleRequired && !interaction.member.roles.cache.has(...)`
    is the rejection condition; `roleOk` is its negation). -/
def roleOk (g : Giveaway) (roles : List String) : Bool :=
  match g.roleRequired with
  | some r => roles.contains r
  | none => true

/-- `handleEnterGiveaway(interaction, giveaway)` (lines 1113-1147): role
    check, duplicate check, then `participants.push(user.id)` and save.
    Note that no clock is consulted: the handler never compares `endTime`
    with `Date.now()`. -/
def handleEnterGiveaway (g : Giveaway) (userId : String) (roles : List String) :
    Giveaway × Reply :=
  if roleOk g roles = false then (g, .roleMissing)
  else if userId ∈ g.participants then (g, .alreadyParticipant)
  else ({ g with participants := g.participants ++ [userId] }, .joined)

/-- `handleCancelGiveaway(interaction, giveaway)` (lines 1149-1200):
    permission check, then the cancellation embed is posted and
    `deleteGiveaway(giveaway.messageId)` removes the record (`none`). -/
def handleCancelGiveaway (g : Giveaway) (hasManageMessages : Bool) :
    Option Giveaway × Reply :=
  if hasManageMessages then (none, .cancelledOk) else (some g, .noPermission)

/-- `handleShowParticipants` (lines 1202-1223): participants only. -/
def handleShowParticipants (g : Giveaway) (userId : String) : Reply :=
  if userId ∈ g.participants then .participantsShown else .mustParticipate

/-- `handleTournamentLeaderboard` (lines 1257-1290). -/
def handleTournamentLeaderboard (g : Giveaway) : Reply :=
  if g.tournament_phase = "tournament" then .leaderboardShown else .notTournament

/-- `handleButtonInteraction(interaction)` (lines 1063-1110): cache lookup,
    the phase-2/3 join gate, then the `switch (customId)` dispatch.  The
    first component is the giveaway record afterwards (`none` when it was
    absent or has been cancelled). -/
def handleButtonInteraction (st : Option Giveaway) (customId userId : String)
    (roles : List String) (hasManageMessages : Bool) : Option Giveaway × Reply :=
  match st with
  | none => (none, .notExists)
  | some g =>
      if customId = "enter" ∧ g.tournament_phase = "tournament" ∧
          1 < g.phase_number then
        (some g, .phaseClosed)
      else if customId = "enter" then
        (some (handleEnterGiveaway g userId roles).1,
          (handleEnterGiveaway g userId roles).2)
      else if customId = "cancel" then
        handleCancelGiveaway g hasManageMessages
      else if customId = "show_participants" then
        (some g, handleShowParticipants g userId)
      else if customId = "user_stats" then
        (some g, .statsShown)
      else if customId = "tournament_leaderboard" then
        (some g, handleTournamentLeaderboard g)
      else
        (some g, .unknownAction)

/-- Claim C4 — chain invariants: (1) the `qualified_users` a phase stores at
    its finalize are participants of that phase; (2) the next phase started
    by `startNextPhase` has exactly the previous phase's `qualified_users`
    as participants (and an empty `qualified_users` of its own); (3) the
    `enter` button is rejected on every tournament phase after phase 1
    without touching the record. -/
theorem tournamentChain_invariants (dist : String → Nat) (g prev : Giveaway)
    (newMessageId userId : String) (now : Nat) (g' : Giveaway)
    (roles : List String) (perm : Bool)
    (hnext : startNextPhase prev newMessageId now = some g')
    (htour : g.tournament_phase = "tournament") (hphase : 1 < g.phase_number) :
    (∀ x ∈ (endTournamentPhase dist g).qualified_users, x ∈ g.participants) ∧
    g'.participants = prev.qualified_users ∧
    g'.qualified_users = [] ∧
    handleButtonInteraction (some g) "enter" userId roles perm =
      (some g, .phaseClosed) := by
  have hfields : g'.participants = prev.qualified_users ∧ g'.qualified_users = [] := by
    unfold startNextPhase at hnext
    cases htab : phasesTable prev (prev.phase_number + 1) with
    | none =>
        rw [htab] at hnext
        simp at hnext
    | some spec =>
        rw [htab] at hnext
        simp only [Option.some.injEq] at hnext
        rw [← hnext]
        exact ⟨rfl, rfl⟩
  refine ⟨fun x hx => qualifiedUsers_subset hx, hfields.1, hfields.2, ?_⟩
  unfold handleButtonInteraction
  simp only []
  rw [if_pos ⟨trivial, htour, hphase⟩]

/-- Witness for `tournamentChain_invariants`: a finished phase-1 record with
    ten qualifiers feeding phase 2, and a phase-2 record rejecting a join. -/
theorem tournamentChain_invariants_witness :
    ((∀ x ∈ (endTournamentPhase (fun _ => 0)
        { messageId := "m2", prix := "p", gagnants := 3, endTime := 100,
          participants := ["A", "B"], roleRequired := none, organizer := "o",
          tournament_phase := "tournament", phase_number := 2,
          total_phases := 3, qualified_users := [] }).qualified_users,
      x ∈ (["A", "B"] : List String)) ∧
    (Option.get (startNextPhase
        { messageId := "m1", prix := "p", gagnants := 10, endTime := 50,
          participants := ["A", "B", "C"], roleRequired := none,
          organizer := "o", tournament_phase := "tournament", phase_number := 1,
          total_phases := 3, qualified_users := ["A", "C"] } "m2" 60)
        (by decide)).participants = ["A", "C"] ∧
    (Option.get (startNextPhase
        { messageId := "m1", prix := "p", gagnants := 10, endTime := 50,
          participants := ["A", "B", "C"], roleRequired := none,
          organizer := "o", tournament_phase := "tournament", phase_number := 1,
          total_phases := 3, qualified_users := ["A", "C"] } "m2" 60)
        (by decide)).qualified_users = [] ∧
    handleButtonInteraction (some
        { messageId := "m2", prix := "p", gagnants := 3, endTime := 100,
          participants := ["A", "B"], roleRequired := none, organizer := "o",
          tournament_phase := "tournament", phase_number := 2,
          total_phases := 3, qualified_users := [] }) "enter" "D" [] true =
      (some
        { messageId := "m2", prix := "p", gagnants := 3, endTime := 100,
          participants := ["A", "B"], roleRequired := none, organizer := "o",
          tournament_phase := "tournament", phase_number := 2,
          total_phases := 3, qualified_users := [] }, .phaseClosed)) := by
  exact tournamentChain_invariants (fun _ => 0)
    { messageId := "m2", prix := "p", gagnants := 3, endTime := 100,
      participants := ["A", "B"], roleRequired := none, organizer := "o",
      tournament_phase := "tournament", phase_number := 2,
      total_phases := 3, qualified_users := [] }
    { messageId := "m1", prix := "p", gagnants := 10, endTime := 50,
      participants := ["A", "B", "C"], roleRequired := none,
      organizer := "o", tournament_phase := "tournament", phase_number := 1,
      total_phases := 3, qualified_users := ["A", "C"] }
    "m2" "D" 60 _ [] true (Option.some_get _).symm rfl (by decide)

/-- Claim C9 — the ticket weight used for winner selection is always between
    1 and 10: without a stats row `calculateTickets` returns the default base
    of 1 (`distributeTickets` always calls it with the default), and with a
    stats row the bonus sum is capped by `Math.min(tickets, 10)`; a user
    whose bonuses overshoot (level 30) is clamped to exactly 10. -/
theorem calculateTickets_bounds (stats : Option UserStats) :
    1 ≤ calculateTickets stats 1 ∧ calculateTickets stats 1 ≤ 10 ∧
    calculateTickets none 1 = 1 ∧
    calculateTickets (some ⟨30, 0, 0⟩) 1 = 10 := by
  refine ⟨?_, ?_, rfl, by decide⟩ <;>
    · cases stats with
      | none => simp [calculateTickets]
      | some s =>
          simp only [calculateTickets]
          omega

/-! ## Rate limiter and interaction dispatch (src/src/index.js,
`limit` lines 938-944 and the `interactionCreate` handler lines 1035-1060)

```js
const limit = (userId, cooldown = 1000) => {
  const now = Date.now();
  const lastRequest = rateLimiterCache.get(userId);
  if (lastRequest && now - lastRequest < cooldown) return false;
  rateLimiterCache.set(userId, now);
  return true;
};
```

The cache is modelled as an association list from user id to the timestamp
of the last allowed request.  A stored timestamp of `0` is falsy in
JavaScript and treated like a missing entry, which the model reproduces. -/

def RateState := List (String × Nat)

def rateGet (rl : RateState) (userId : String) : Option Nat :=
  (rl.find? (fun e => e.1 == userId)).map Prod.snd

def rateSet (rl : RateState) (userId : String) (now : Nat) : RateState :=
  (userId, now) :: rl.filter (fun e => ¬ e.1 == userId)

def limit (rl : RateState) (userId : String) (now : Nat)
    (cooldown : Nat) : Bool × RateState :=
  match rateGet rl userId with
  | some lastRequest =>
      if lastRequest ≠ 0 ∧ (now : Int) - lastRequest < cooldown then (false, rl)
      else (true, rateSet rl userId now)
  | none => (true, rateSet rl userId now)

/-- One inbound Discord interaction, as dispatched by the
    `interactionCreate` listener: either a slash command (`known` is whether
    `client.commands.get` finds it) or a button press. -/
inductive Interaction
  | command (userId : String) (known : Bool)
  | button (userId customId : String) (roles : List String)
      (hasManageMessages : Bool)

inductive Outcome
  | ignored
  | rateLimited
  | commandExecuted
  | buttonResult (st : Option Giveaway) (r : Reply)
  deriving DecidableEq

/-- The `interactionCreate` listener: slash commands consult `limit` (1000 ms
    default cooldown) before executing; button presses are forwarded to
    `handleButtonInteraction` directly, never consulting the limiter. -/
def processInteraction (st : Option Giveaway) (rl : RateState)
    (i : Interaction) (now : Nat) : Outcome × RateState :=
  match i with
  | .command userId known =>
      if known = false then (.ignored, rl)
      else
        match limit rl userId now 1000 with
        | (false, rl2) => (.rateLimited, rl2)
        | (true, rl2) => (.commandExecuted, rl2)
  | .button userId customId roles hasManageMessages =>
      (.buttonResult (handleButtonInteraction st customId userId roles
          hasManageMessages).1
        (handleButtonInteraction st customId userId roles hasManageMessages).2,
        rl)

/-- Claim C10 — button presses are not rate limited: the outcome of a button
    interaction is identical under any two rate-limiter states (and any two
    clocks), while slash commands are gated — the same command is refused
    100 ms after a previous action but executed on a fresh limiter state. -/
theorem buttonInteraction_rateLimiter_independent (st : Option Giveaway)
    (rl1 rl2 : RateState) (userId customId : String) (roles : List String)
    (hasManageMessages : Bool) (now1 now2 : Nat) :
    (processInteraction st rl1
        (.button userId customId roles hasManageMessages) now1).1 =
      (processInteraction st rl2
        (.button userId customId roles hasManageMessages) now2).1 ∧
    (processInteraction none [("A", 400)] (.command "A" true) 500).1 =
      .rateLimited ∧
    (processInteraction none [] (.command "A" true) 500).1 =
      .commandExecuted := by
  exact ⟨rfl, rfl, rfl⟩

/-! ## The classic revision (src/unnamed/part_000)

This revision stores one row per giveaway with `giveawayId`, `startTime` and
`duration` columns and has a `leave` button.  Only the fields its logic
reads are modelled. -/

namespace Classic

structure ClassicGiveaway where
  messageId : String
  prix : String
  gagnants : Nat
  endTime : Nat
  participants : List String
  roleRequired : Option String
  organizer : String
  giveawayId : String
  startTime : Nat
  duration : Nat
  deriving DecidableEq

inductive ClassicReply
  | notParticipant
  | giveawayEnded
  | leftOk
  deriving DecidableEq

/-- `handleLeaveGiveaway(interaction, giveaway)` (src/unnamed/part_000 lines
    753-782): membership check, deadline check
    (`giveaway.endTime <= Date.now()`), then
    `participants.splice(indexOf(user.id), 1)` — removal of the first
    occurrence (the `participantIndex > -1` guard always holds after the
    membership check). -/
def handleLeaveGiveaway (g : ClassicGiveaway) (userId : String) (now : Nat) :
    ClassicGiveaway × ClassicReply :=
  if userId ∉ g.participants then (g, .notParticipant)
  else if g.endTime ≤ now then (g, .giveawayEnded)
  else ({ g with participants := g.participants.erase userId }, .leftOk)

/-! ### Persistence (`saveGiveaway`, lines 162-192 of part_000; the
tournament revision's copy at src/src/index.js lines 876-909 has the same
shape)

```js
const saveGiveaway = (giveaway) => {
  try {
    const stmt = db.prepare(...);
    stmt.run(...);
    giveawaysCache.set(giveaway.messageId, giveaway);
  } catch (error) {
    console.error('Erreur sauvegarde giveaway:', error);
  }
};
```

The underlying SQLite write is abstracted as an `Except` value; the
`try`/`catch` around it is translated literally: on failure the error is
logged and the function returns normally. -/

inductive StorageError
  | writeFailed
  deriving DecidableEq

/-- What a call to `saveGiveaway` did: whether the row was written, whether
    the in-memory cache was updated, and whether the catch block logged. -/
structure SaveOutcome where
  rowWritten : Bool
  cacheUpdated : Bool
  errorLogged : Bool
  deriving DecidableEq

/-- `saveGiveaway` never rethrows: both branches return normally (`.ok`). -/
def saveGiveaway (putResult : Except StorageError Unit) :
    Except StorageError SaveOutcome :=
  match putResult with
  | .ok _ => .ok ⟨true, true, false⟩
  | .error _ => .ok ⟨false, false, true⟩

/-- The caller (`handleClassicGiveaway`, which calls `saveGiveaway(giveaway)`
    and then unconditionally `startClassicCountdown(message, giveaway)`):
    the countdown is armed whenever `saveGiveaway` returns normally. -/
def callerSchedules (saveResult : Except StorageError SaveOutcome) : Bool :=
  match saveResult with
  | .ok _ => true
  | .error _ => false

/-- Claim C7 counterexample — a put that cannot be durably written does not
    propagate: `saveGiveaway` swallows the `StorageError` and returns
    normally, and the caller proceeds to arm the countdown as if the
    giveaway had been persisted. -/
theorem saveGiveaway_swallows_error :
    saveGiveaway (.error .writeFailed) ≠ .error .writeFailed ∧
    (∀ e : StorageError, saveGiveaway (.error .writeFailed) ≠ .error e) ∧
    saveGiveaway (.error .writeFailed) = .ok ⟨false, false, true⟩ :=
  ⟨fun h => Except.noConfusion h, fun _ h => Except.noConfusion h, rfl⟩

/-- Claim C7 (amended) — a failed put is caught inside `saveGiveaway`,
    logged, and the function returns normally with neither the row nor the
    cache written; the caller cannot distinguish this from success and arms
    the countdown anyway.  A successful put writes both. -/
theorem saveGiveaway_spec (e : StorageError) :
    saveGiveaway (.error e) = .ok ⟨false, false, true⟩ ∧
    callerSchedules (saveGiveaway (.error e)) = true ∧
    saveGiveaway (.ok ()) = .ok ⟨true, true, false⟩ := by
  cases e
  exact ⟨rfl, rfl, rfl⟩

/-! ### Crash recovery (part_000: `restartAllGiveaways` lines 684-719,
`processExpiredGiveaway` lines 600-657, `startClassicCountdown` lines
503-558)

`restartAllGiveaways` reads every row and compares
`remainingTime = row.endTime - Date.now()` with 0; expired rows go through
`processExpiredGiveaway` (which finalizes via `endClassicGiveaway` and never
arms a countdown; a missing channel/message or an already-processed message
only deletes the row), live rows go through `restartGiveawayCountdown`,
which re-arms `startClassicCountdown` against the row's stored `endTime`.
Each countdown tick re-evaluates `currentGiveaway.endTime - Date.now()` and
finalizes as soon as it is `≤ 0`. -/

inductive CountdownResult
  | stopNoGiveaway
  | finalizeNow
  | keepRunning
  deriving DecidableEq

/-- One tick of the `startClassicCountdown` interval (the `updateEmbed`
    closure): stop if the giveaway vanished from the cache, finalize if the
    stored `endTime` has been reached, otherwise keep running. -/
def startClassicCountdownTick (st : Option ClassicGiveaway) (now : Nat) :
    CountdownResult :=
  match st with
  | none => .stopNoGiveaway
  | some g => if (g.endTime : Int) - (now : Int) ≤ 0 then .finalizeNow
      else .keepRunning

/-- What the recovery pass did for one row: whether it finalized the
    giveaway now, and the `endTime` watched by a newly armed countdown
    (`none` when no timer was armed). -/
structure RecoveryEffect where
  finalizedNow : Bool
  timerArmed : Option Nat
  deriving DecidableEq

/-- The per-row branch of `restartAllGiveaways`: `remainingTime <= 0` leads
    into `processExpiredGiveaway` (finalize now when the channel, the
    message and its buttons are still there; otherwise only delete the row);
    a positive `remainingTime` leads into `restartGiveawayCountdown`, which
    arms the countdown with the row's original `endTime`. -/
def restartRowEffect (g : ClassicGiveaway) (now : Nat) (contextOk : Bool)
    (alreadyProcessed : Bool) : RecoveryEffect :=
  if (g.endTime : Int) - (now : Int) ≤ 0 then
    if contextOk = false then ⟨false, none⟩
    else if alreadyProcessed then ⟨false, none⟩
    else ⟨true, none⟩
  else ⟨false, some g.endTime⟩

/-- Claim C6 — recovery of a row whose deadline has passed finalizes it
    immediately and arms no timer; recovery of a live row arms a countdown
    that watches the row's original absolute `endTime`: a tick fires exactly
    when the current time has reached that `endTime`, never earlier. -/
theorem recovery_spec (g : ClassicGiveaway) (now : Nat)
    (contextOk alreadyProcessed : Bool) (hctx : contextOk = true)
    (hproc : alreadyProcessed = false) :
    (g.endTime ≤ now →
      restartRowEffect g now contextOk alreadyProcessed =
        ⟨true, none⟩) ∧
    (now < g.endTime →
      restartRowEffect g now contextOk alreadyProcessed =
        ⟨false, some g.endTime⟩ ∧
      (∀ t : Nat, startClassicCountdownTick (some g) t = .finalizeNow ↔
        g.endTime ≤ t)) := by
  subst hctx hproc
  constructor
  · intro hle
    unfold restartRowEffect
    rw [if_pos (by omega : (g.endTime : Int) - (now : Int) ≤ 0)]
    rw [if_neg (by simp), if_neg (by simp)]
  · intro hlt
    refine ⟨?_, ?_⟩
    · unfold restartRowEffect
      rw [if_neg (by omega : ¬ (g.endTime : Int) - (now : Int) ≤ 0)]
    · intro t
      unfold startClassicCountdownTick
      simp only []
      constructor
      · intro hfin
        by_contra hnot
        rw [if_neg (by omega : ¬ (g.endTime : Int) - (t : Int) ≤ 0)] at hfin
        exact absurd hfin (by simp)
      · intro hle
        rw [if_pos (by omega : (g.endTime : Int) - (t : Int) ≤ 0)]

/-- Witness for `recovery_spec`: a row one hour past its deadline is
    finalized with no timer; a row one hour ahead re-arms a countdown on the
    original `endTime = 7200000`, whose tick fires at `7200000` but not at
    `7199999`. -/
theorem recovery_spec_witness :
    restartRowEffect
      ⟨"m", "p", 1, 3600000, [], none, "o", "GIV-1", 0, 3600000⟩
      7200000 true false = ⟨true, none⟩ ∧
    restartRowEffect
      ⟨"n", "q", 1, 7200000, [], none, "o", "GIV-2", 0, 3600000⟩
      3600000 true false = ⟨false, some 7200000⟩ ∧
    startClassicCountdownTick
      (some ⟨"n", "q", 1, 7200000, [], none, "o", "GIV-2", 0, 3600000⟩)
      7200000 = .finalizeNow ∧
    startClassicCountdownTick
      (some ⟨"n", "q", 1, 7200000, [], none, "o", "GIV-2", 0, 3600000⟩)
      7199999 ≠ .finalizeNow := by
  have h1 := (recovery_spec
    ⟨"m", "p", 1, 3600000, [], none, "o", "GIV-1", 0, 3600000⟩
    7200000 true false rfl rfl).1 (by decide)
  have h2 := (recovery_spec
    ⟨"n", "q", 1, 7200000, [], none, "o", "GIV-2", 0, 3600000⟩
    3600000 true false rfl rfl).2 (by decide)
  refine ⟨h1, h2.1, (h2.2 7200000).mpr (by decide), ?_⟩
  intro hfin
  exact absurd ((h2.2 7199999).mp hfin) (by decide)

end Classic

/-- Claim C8 counterexample — Join is not restricted to "strictly before
    `endTime`": the `enter` handler consults no clock, so a user who is not
    yet a participant joins successfully even when the current time (10) is
    past the giveaway's `endTime` (5) while the record still awaits its
    cleanup tick. -/
theorem joinAfterDeadline :
    ({ messageId := "m", prix := "p", gagnants := 1, endTime := 5,
       participants := [], roleRequired := none, organizer := "o",
       tournament_phase := "single", phase_number := 1, total_phases := 1,
       qualified_users := [] } : Giveaway).endTime ≤ 10 ∧
    (handleEnterGiveaway
      { messageId := "m", prix := "p", gagnants := 1, endTime := 5,
        participants := [], roleRequired := none, organizer := "o",
        tournament_phase := "single", phase_number := 1, total_phases := 1,
        qualified_users := [] } "A" []).2 = .joined ∧
    (handleEnterGiveaway
      { messageId := "m", prix := "p", gagnants := 1, endTime := 5,
        participants := [], roleRequired := none, organizer := "o",
        tournament_phase := "single", phase_number := 1, total_phases := 1,
        qualified_users := [] } "A" []).1.participants ≠ [] := by
  refine ⟨by decide, by decide, by decide⟩

/-- Claim C8 (amended) — while the record exists: a duplicate Join and a
    Leave by a non-participant are reported as distinguishable conditions
    and leave the participant set unchanged; Leave mutates only strictly
    before `endTime` (at or past it, it is refused); Join by a fresh user
    with the required role appends them regardless of the clock. -/
theorem joinLeave_spec (g : Giveaway) (cg : Classic.ClassicGiveaway)
    (userId : String) (roles : List String) (now : Nat) :
    (roleOk g roles = true → userId ∈ g.participants →
      handleEnterGiveaway g userId roles = (g, .alreadyParticipant)) ∧
    (roleOk g roles = true → userId ∉ g.participants →
      handleEnterGiveaway g userId roles =
        ({ g with participants := g.participants ++ [userId] }, .joined)) ∧
    (userId ∉ cg.participants →
      Classic.handleLeaveGiveaway cg userId now = (cg, .notParticipant)) ∧
    (userId ∈ cg.participants → cg.endTime ≤ now →
      Classic.handleLeaveGiveaway cg userId now = (cg, .giveawayEnded)) ∧
    (userId ∈ cg.participants → now < cg.endTime →
      Classic.handleLeaveGiveaway cg userId now =
        ({ cg with participants := cg.participants.erase userId }, .leftOk)) := by
  refine ⟨?_, ?_, ?_, ?_, ?_⟩
  · intro hrole hmem
    unfold handleEnterGiveaway
    rw [if_neg (by rw [hrole]; simp), if_pos hmem]
  · intro hrole hmem
    unfold handleEnterGiveaway
    rw [if_neg (by rw [hrole]; simp), if_neg hmem]
  · intro hmem
    unfold Classic.handleLeaveGiveaway
    rw [if_pos hmem]
  · intro hmem hend
    unfold Classic.handleLeaveGiveaway
    rw [if_neg (by simp [hmem]), if_pos hend]
  · intro hmem hend
    unfold Classic.handleLeaveGiveaway
    rw [if_neg (by simp [hmem]), if_neg (by omega)]

/-- Witness for `joinLeave_spec`: user `A` re-joining is reported, fresh
    user `B` joins, `B` cannot leave a giveaway they are not in, `A` cannot
    leave after the deadline, and `A` can leave before it. -/
theorem joinLeave_spec_witness :
    handleEnterGiveaway
      { messageId := "m", prix := "p", gagnants := 1, endTime := 100,
        participants := ["A"], roleRequired := none, organizer := "o",
        tournament_phase := "single", phase_number := 1, total_phases := 1,
        qualified_users := [] } "A" [] =
      ({ messageId := "m", prix := "p", gagnants := 1, endTime := 100,
         participants := ["A"], roleRequired := none, organizer := "o",
         tournament_phase := "single", phase_number := 1, total_phases := 1,
         qualified_users := [] }, .alreadyParticipant) ∧
    Classic.handleLeaveGiveaway
      ⟨"m", "p", 1, 100, ["A"], none, "o", "GIV-1", 0, 100⟩ "B" 50 =
      (⟨"m", "p", 1, 100, ["A"], none, "o", "GIV-1", 0, 100⟩,
        .notParticipant) ∧
    Classic.handleLeaveGiveaway
      ⟨"m", "p", 1, 100, ["A"], none, "o", "GIV-1", 0, 100⟩ "A" 100 =
      (⟨"m", "p", 1, 100, ["A"], none, "o", "GIV-1", 0, 100⟩,
        .giveawayEnded) ∧
    Classic.handleLeaveGiveaway
      ⟨"m", "p", 1, 100, ["A"], none, "o", "GIV-1", 0, 100⟩ "A" 50 =
      (⟨"m", "p", 1, 100, (["A"] : List String).erase "A", none, "o",
        "GIV-1", 0, 100⟩, .leftOk) := by
  have h := joinLeave_spec
    { messageId := "m", prix := "p", gagnants := 1, endTime := 100,
      participants := ["A"], roleRequired := none, organizer := "o",
      tournament_phase := "single", phase_number := 1, total_phases := 1,
      qualified_users := [] }
    ⟨"m", "p", 1, 100, ["A"], none, "o", "GIV-1", 0, 100⟩ "A" [] 100
  have h' := joinLeave_spec
    { messageId := "m", prix := "p", gagnants := 1, endTime := 100,
      participants := ["A"], roleRequired := none, organizer := "o",
      tournament_phase := "single", phase_number := 1, total_phases := 1,
      qualified_users := [] }
    ⟨"m", "p", 1, 100, ["A"], none, "o", "GIV-1", 0, 100⟩ "B" [] 50
  have h'' := joinLeave_spec
    { messageId := "m", prix := "p", gagnants := 1, endTime := 100,
      participants := ["A"], roleRequired := none, organizer := "o",
      tournament_phase := "single", phase_number := 1, total_phases := 1,
      qualified_users := [] }
    ⟨"m", "p", 1, 100, ["A"], none, "o", "GIV-1", 0, 100⟩ "A" [] 50
  exact ⟨h.1 (by decide) (by decide),
    h'.2.2.1 (by decide),
    h.2.2.2.1 (by decide) (by decide),
    h''.2.2.2.2 (by decide) (by decide)⟩

/-! ## The finalize / Cancel race (src/src/index.js,
`endClassicGiveaway` lines 980-1032 and `handleCancelGiveaway` lines
1149-1200)

Node.js runs both on one event loop, so each handler executes atomically
between its `await` points.  Both handlers have the same three-step shape:

* a guard that reads the giveaway from `giveawaysCache` and silently
  returns when it is gone (for Cancel this read happens in
  `handleButtonInteraction`, which replies "n'existe plus");
* the terminal/cancellation announcement (`message.edit` of the result or
  cancellation embed — an `await`, so the other handler may run in the
  window between the guard and this step, and between this step and the
  deletion);
* `deleteGiveaway(messageId)` — the row is removed if still present.

A schedule is a list of booleans: `true` steps the timer-driven finalize,
`false` steps the Cancel handler. -/

namespace Race

inductive Ev
  | terminalNotify
  | cancelNotify
  | rowDeleted
  | notFoundReply
  deriving DecidableEq

/-- The shared state: whether the row is still present, the emitted events,
    and each handler's program counter (0 guard pending, 1 announcement
    pending, 2 deletion pending, 3 done) plus its aborted flag. -/
structure RaceState where
  rowPresent : Bool
  events : List Ev
  fpc : Nat
  fAborted : Bool
  cpc : Nat
  cAborted : Bool
  deriving DecidableEq

/-- One atomic segment of `endClassicGiveaway`.  The guard is the
    `if (!currentGiveaway) return;` cache check; the announcement
    (`message.edit` with the winners embed plus the winner thread) runs
    without re-checking the cache; `deleteGiveaway` removes the row if it
    is still there. -/
def finalizeStep (s : RaceState) : RaceState :=
  if s.fAborted ∨ 3 ≤ s.fpc then s
  else match s.fpc with
    | 0 => if s.rowPresent then { s with fpc := 1 }
        else { s with fAborted := true }
    | 1 => { s with fpc := 2, events := s.events ++ [.terminalNotify] }
    | _ => { s with
              fpc := 3,
              rowPresent := false,
              events := if s.rowPresent then s.events ++ [.rowDeleted]
                else s.events }

/-- One atomic segment of the Cancel path.  The guard is
    `handleButtonInteraction`'s cache lookup, which replies "n'existe plus"
    when the row is gone; the announcement is the cancellation embed edit;
    then `deleteGiveaway`. -/
def cancelStep (s : RaceState) : RaceState :=
  if s.cAborted ∨ 3 ≤ s.cpc then s
  else match s.cpc with
    | 0 => if s.rowPresent then { s with cpc := 1 }
        else { s with cAborted := true, events := s.events ++ [.notFoundReply] }
    | 1 => { s with cpc := 2, events := s.events ++ [.cancelNotify] }
    | _ => { s with
              cpc := 3,
              rowPresent := false,
              events := if s.rowPresent then s.events ++ [.rowDeleted]
                else s.events }

def raceStep (which : Bool) (s : RaceState) : RaceState :=
  if which then finalizeStep s else cancelStep s

def runRace : List Bool → RaceState → RaceState
  | [], s => s
  | w :: sched, s => runRace sched (raceStep w s)

/-- Both handlers racing on a live row. -/
def initRace : RaceState := ⟨true, [], 0, false, 0, false⟩

/-- Terminal notifications observed by users: the winner announcement or the
    cancellation announcement. -/
def terminalNotifications (s : RaceState) : Nat :=
  s.events.count .terminalNotify + s.events.count .cancelNotify

/-- Deletions that actually removed the row (the second `DELETE` of a race
    loser matches no row). -/
def effectiveDeletions (s : RaceState) : Nat :=
  s.events.count .rowDeleted

def raceCompleted (s : RaceState) : Prop :=
  (s.fpc = 3 ∨ s.fAborted) ∧ (s.cpc = 3 ∨ s.cAborted)

/-- Once the row is gone and both handlers are at their guard, a step can
    only abort a handler (the Cancel guard replies "n'existe plus"); no
    announcement and no deletion is ever added. -/
theorem raceStep_gone (w : Bool) (s : RaceState) (hrow : s.rowPresent = false)
    (hf : s.fpc = 0) (hc : s.cpc = 0) :
    (raceStep w s).rowPresent = false ∧ (raceStep w s).fpc = 0 ∧
    (raceStep w s).cpc = 0 ∧
    terminalNotifications (raceStep w s) = terminalNotifications s ∧
    effectiveDeletions (raceStep w s) = effectiveDeletions s := by
  have hcount1 : List.count Ev.terminalNotify [Ev.notFoundReply] = 0 := rfl
  have hcount2 : List.count Ev.cancelNotify [Ev.notFoundReply] = 0 := rfl
  have hcount3 : List.count Ev.rowDeleted [Ev.notFoundReply] = 0 := rfl
  cases w with
  | true =>
      rw [show raceStep true s = finalizeStep s from rfl]
      unfold finalizeStep
      by_cases habort : s.fAborted ∨ 3 ≤ s.fpc
      · rw [if_pos habort]
        exact ⟨hrow, hf, hc, rfl, rfl⟩
      · rw [if_neg habort, hf]
        simp only []
        rw [if_neg (show ¬ s.rowPresent = true by simp [hrow])]
        exact ⟨hrow, rfl, hc, rfl, rfl⟩
  | false =>
      rw [show raceStep false s = cancelStep s from rfl]
      unfold cancelStep
      by_cases habort : s.cAborted ∨ 3 ≤ s.cpc
      · rw [if_pos habort]
        exact ⟨hrow, hf, hc, rfl, rfl⟩
      · rw [if_neg habort, hc]
        simp only []
        rw [if_neg (show ¬ s.rowPresent = true by simp [hrow])]
        refine ⟨hrow, hf, rfl, ?_, ?_⟩
        · simp [terminalNotifications, List.count_append, hcount1, hcount2]
        · simp [effectiveDeletions, List.count_append, hcount3]

/-- Claim C1 counterexample — the guard is not re-checked after an `await`:
    in the schedule where Cancel runs completely inside finalize's window
    between its guard and its announcement, the completed run emits *two*
    terminal notifications (the cancellation embed and then the winners
    embed), violating "exactly one of them takes effect". -/
theorem finalizeCancelRace_two_notifications :
    raceCompleted (runRace [true, false, false, false, true, true] initRace) ∧
    terminalNotifications
      (runRace [true, false, false, false, true, true] initRace) = 2 ∧
    effectiveDeletions
      (runRace [true, false, false, false, true, true] initRace) = 1 := by
  refine ⟨⟨?_, ?_⟩, ?_, ?_⟩ <;> decide

/-- Claim C1 (amended) — when finalize and Cancel do not interleave, exactly
    one takes effect: finalize-then-Cancel yields one winner announcement
    and one row deletion with Cancel reduced to a "no longer exists" reply,
    and Cancel-then-finalize yields one cancellation announcement and one
    row deletion with finalize a silent no-op.  Moreover, once the row is
    gone, any schedule starting fresh handlers adds no terminal
    notification and no deletion. -/
theorem finalizeCancelRace_sequential (sched : List Bool) (s : RaceState)
    (hrow : s.rowPresent = false) (hf : s.fpc = 0) (hc : s.cpc = 0) :
    (terminalNotifications (runRace sched s) = terminalNotifications s ∧
      effectiveDeletions (runRace sched s) = effectiveDeletions s) ∧
    (terminalNotifications
        (runRace [true, true, true, false, false, false] initRace) = 1 ∧
      effectiveDeletions
        (runRace [true, true, true, false, false, false] initRace) = 1 ∧
      (runRace [true, true, true, false, false, false] initRace).events =
        [.terminalNotify, .rowDeleted, .notFoundReply]) ∧
    (terminalNotifications
        (runRace [false, false, false, true, true, true] initRace) = 1 ∧
      effectiveDeletions
        (runRace [false, false, false, true, true, true] initRace) = 1 ∧
      (runRace [false, false, false, true, true, true] initRace).events =
        [.cancelNotify, .rowDeleted]) := by
  refine ⟨?_, by refine ⟨?_, ?_, ?_⟩ <;> decide, by refine ⟨?_, ?_, ?_⟩ <;> decide⟩
  induction sched generalizing s with
  | nil => exact ⟨rfl, rfl⟩
  | cons w sched ih =>
      have hstep := raceStep_gone w s hrow hf hc
      have hrec := ih (raceStep w s) hstep.1 hstep.2.1 hstep.2.2.1
      rw [show runRace (w :: sched) s = runRace sched (raceStep w s) from rfl]
      exact ⟨hrec.1.trans hstep.2.2.2.1, hrec.2.trans hstep.2.2.2.2⟩

/-- Witness for `finalizeCancelRace_sequential`: from a state whose row is
    already gone, a Cancel step followed by a finalize step adds no
    notification and no deletion. -/
theorem finalizeCancelRace_sequential_witness :
    (terminalNotifications
        (runRace [false, true] ⟨false, [], 0, false, 0, false⟩) =
      terminalNotifications (⟨false, [], 0, false, 0, false⟩ : RaceState) ∧
      effectiveDeletions
        (runRace [false, true] ⟨false, [], 0, false, 0, false⟩) =
      effectiveDeletions (⟨false, [], 0, false, 0, false⟩ : RaceState)) ∧
    (terminalNotifications
        (runRace [true, true, true, false, false, false] initRace) = 1 ∧
      effectiveDeletions
        (runRace [true, true, true, false, false, false] initRace) = 1 ∧
      (runRace [true, true, true, false, false, false] initRace).events =
        [.terminalNotify, .rowDeleted, .notFoundReply]) ∧
    (terminalNotifications
        (runRace [false, false, false, true, true, true] initRace) = 1 ∧
      effectiveDeletions
        (runRace [false, false, false, true, true, true] initRace) = 1 ∧
      (runRace [false, false, false, true, true, true] initRace).events =
        [.cancelNotify, .rowDeleted]) :=
  finalizeCancelRace_sequential [false, true]
    ⟨false, [], 0, false, 0, false⟩ rfl rfl rfl

end Race

end Exogiveaway
